import Mathlib

/-!
Verification of the preference-aware retrieval, reranking and augmentation
pipeline of the real-estate listing assistant.

The development shallowly embeds the relevant Python code:
* `llm_pipeline/utils.py`: the numeric normalizer (`safe_int`, `safe_float`,
  `parse_price`) and the augmentation service
  (`augment_listing_with_preferences`);
* `app.py`: the preference normalizer (`parse_preferences` together with the
  falsy-value filter applied in `run_ui`) and the reranker
  (`rerank_listings` with its inner `score_listing`).

Python floats are modelled as rationals, Python's stable
`sorted(..., reverse=True)` as `List.mergeSort` with a greater-or-equal
comparison, and the outcome of the external language-model call as an
`Option String` argument (`some` = the call returned, `none` = it raised).
-/

namespace RealEstate

/-- A Python runtime value as it can appear in a listing metadata field or as
an argument of the numeric-normalizer helpers.  Python `None` is `pyNone`;
floats are modelled as rationals; lists of strings cover the amenity lists
the catalog stores. -/
inductive PyObj where
  | pyNone
  | int (n : ℤ)
  | float (q : ℚ)
  | str (s : String)
  | list (xs : List String)
deriving DecidableEq

/-- Python truthiness of a modelled value (`bool(obj)`). -/
def PyObj.truthy : PyObj → Bool
  | .pyNone => false
  | .int n => n ≠ 0
  | .float q => q ≠ 0
  | .str s => s ≠ ""
  | .list xs => xs ≠ []

/-- Python `str.lower` for the ASCII city names this program compares. -/
def pyLower (s : String) : String := ⟨s.data.map Char.toLower⟩

/-- The value of a list of decimal digits, most significant first. -/
def digitsVal (cs : List Char) : ℕ :=
  cs.foldl (fun a c => 10 * a + (c.toNat - 48)) 0

/-- The rational value of a digits-and-point character list: the digits before
the first point are the integer part, the digits after it the fractional
part. -/
def digitDotVal (cs : List Char) : ℚ :=
  let intPart := cs.takeWhile (fun c => c ≠ '.')
  let fracPart := (cs.dropWhile (fun c => c ≠ '.')).drop 1
  (digitsVal intPart : ℚ) + (digitsVal fracPart : ℚ) / (10 : ℚ) ^ fracPart.length

/-- Python `float()` on the body of a numeric string (after an optional sign):
it succeeds when the body consists of digits and at most one decimal point and
contains at least one digit.  Exponents, `inf` and `nan` never occur in the
strings this program feeds to `float()` and are not modelled. -/
def floatBody? (cs : List Char) : Option ℚ :=
  if cs.all (fun c => c.isDigit || c == '.') && cs.any (fun c => c.isDigit)
      && cs.count '.' ≤ 1 then
    some (digitDotVal cs)
  else none

/-- Python `float(s)` for a string `s`: an optional sign followed by a
digits-and-point body. -/
def pyFloatOfString? (s : String) : Option ℚ :=
  match s.data with
  | '-' :: rest => (floatBody? rest).map (fun q => -q)
  | '+' :: rest => floatBody? rest
  | cs => floatBody? cs

/-- Python `int()` on the body of an integer string: digits only, nonempty. -/
def intBody? (cs : List Char) : Option ℤ :=
  if cs ≠ [] && cs.all (fun c => c.isDigit) then some (digitsVal cs) else none

/-- Python `int(s)` for a string `s`. -/
def pyIntOfString? (s : String) : Option ℤ :=
  match s.data with
  | '-' :: rest => (intBody? rest).map (fun n => -n)
  | '+' :: rest => intBody? rest
  | cs => intBody? cs

/-- Truncation toward zero, the behaviour of Python `int()` on a float. -/
def ratTrunc (q : ℚ) : ℤ := if 0 ≤ q then ⌊q⌋ else ⌈q⌉

/-- Python `int(obj)`: succeeds on ints, floats (truncating toward zero) and
integer-literal strings; `None` and lists raise `TypeError`, malformed strings
raise `ValueError` (both modelled as `none`). -/
def pyInt? : PyObj → Option ℤ
  | .int n => some n
  | .float q => some (ratTrunc q)
  | .str s => pyIntOfString? s
  | .pyNone => none
  | .list _ => none

/-- Python `float(obj)`. -/
def pyFloat? : PyObj → Option ℚ
  | .int n => some n
  | .float q => some q
  | .str s => pyFloatOfString? s
  | .pyNone => none
  | .list _ => none

/-- Decimal rendering of a rational whose reduced denominator divides a power
of ten, used to model Python `str()` on a float (every Python float prints as
a finite decimal; rationals outside that range fall back to a fraction
rendering, which no reachable value of this program hits). -/
def ratDecimalString (q : ℚ) : String :=
  if q.den = 1 then s!"{q.num}.0"
  else
    match (List.range 64).find? (fun k => q.den ∣ 10 ^ k) with
    | some k =>
      let scaled : ℤ := q.num * (((10 ^ k) / q.den : ℕ) : ℤ)
      let sign := if q.num < 0 then "-" else ""
      let ds := toString scaled.natAbs
      let ds := if ds.length ≤ k then
          String.mk (List.replicate (k + 1 - ds.length) '0') ++ ds
        else ds
      sign ++ String.mk (ds.data.take (ds.length - k)) ++ "." ++
        String.mk (ds.data.drop (ds.length - k))
    | none => s!"{q.num}/{q.den}"

/-- Python `str(obj)`. -/
def pyStr : PyObj → String
  | .pyNone => "None"
  | .int n => toString n
  | .float q => ratDecimalString q
  | .str s => s
  | .list xs =>
      let quote := (Char.ofNat 39).toString
      "[" ++ String.intercalate ", " (xs.map (fun x => quote ++ x ++ quote)) ++ "]"

/-- `safe_int` from `llm_pipeline/utils.py`: `int(val)` guarded by
`except (ValueError, TypeError)`, which logs a warning and returns the
caller-supplied default (Python default `1`).  The Lean function is total:
no exception can escape. -/
def safe_int (val : PyObj) (d : ℤ) : ℤ :=
  match pyInt? val with
  | some n => n
  | none => d

/-- The `re.sub(r"[^\d.]", "", ·)` step of `safe_float`: drop every character
that is not a decimal digit or a point. -/
def stripNonDigitDot (s : String) : String :=
  ⟨s.data.filter (fun c => c.isDigit || c == '.')⟩

/-- `safe_float` from `llm_pipeline/utils.py`:
`float(re.sub(r"[^\d.]", "", str(val)))` guarded by a catch-all `except`,
which logs a warning and returns the caller-supplied default (Python default
`1000.0`).  The Lean function is total: no exception can escape. -/
def safe_float (val : PyObj) (d : ℚ) : ℚ :=
  match pyFloatOfString? (stripNonDigitDot (pyStr val)) with
  | some q => q
  | none => d

/-- `parse_price` from `llm_pipeline/utils.py`: `safe_float` with default
`random.randint(100_000, 900_000)`.  The random draw is modelled as the
explicit argument `r`; `random.randint` yields an integer in the inclusive
range [100000, 900000]. -/
def parse_price (r : ℤ) (val : PyObj) : ℚ := safe_float val (r : ℚ)

/-- The raw search-form inputs of `run_ui` in `app.py`: the four text inputs
and the two fields that the spec's data model types as string sequences.
`none` models an absent key. -/
structure RawInputs where
  square_feet : Option String := none
  city : Option String := none
  budget : Option String := none
  features : Option String := none
  amenities : Option (List String) := none
  neighborhoods : Option (List String) := none
deriving DecidableEq

/-- After the falsy-value filter the dictionary has the same shape, with the
dropped keys now absent. -/
abbrev UserInputs := RawInputs

/-- Python truthiness of `dict.get` on a string-valued key. -/
def truthyStr? : Option String → Bool
  | some s => s ≠ ""
  | none => false

/-- Python truthiness of `dict.get` on a list-valued key. -/
def truthyList? : Option (List String) → Bool
  | some xs => xs ≠ []
  | none => false

/-- The dict comprehension of `run_ui` in `app.py`:
`{k: v for k, v in raw_inputs.items() if v not in [None, "", []]}`. -/
def filterInputs (r : RawInputs) : UserInputs where
  square_feet := if r.square_feet = some "" then none else r.square_feet
  city := if r.city = some "" then none else r.city
  budget := if r.budget = some "" then none else r.budget
  features := if r.features = some "" then none else r.features
  amenities := if r.amenities = some [] then none else r.amenities
  neighborhoods := if r.neighborhoods = some [] then none else r.neighborhoods

/-- `parse_preferences` from `app.py`: one fixed-template sentence per truthy
field, appended in the source order and joined with newlines. -/
def parse_preferences (u : UserInputs) : String :=
  let prompt_parts : List String :=
    (if truthyStr? u.square_feet then
        let v := u.square_feet.getD ""
        [s!"I want a house of around {v} sq ft."]
      else []) ++
    (if truthyStr? u.city then
        let v := u.city.getD ""
        [s!"My preferred city is {v}."]
      else []) ++
    (if truthyStr? u.budget then
        let v := u.budget.getD ""
        [s!"My budget is around {v}."]
      else []) ++
    (if truthyStr? u.features then
        let v := u.features.getD ""
        [s!"I\x27m looking for features like: {v}."]
      else []) ++
    (if truthyList? u.amenities then
        let v := String.intercalate ", " (u.amenities.getD [])
        [s!"I want amenities like: {v}."]
      else []) ++
    (if truthyList? u.neighborhoods then
        let v := String.intercalate ", " (u.neighborhoods.getD [])
        [s!"My preferred neighborhoods are: {v}."]
      else [])
  String.intercalate "\n" prompt_parts

/-- `normalize` of the spec (§4.2): the `run_ui` falsy-value filter composed
with `parse_preferences`, returning the query string and the structured
preference record. -/
def normalize (r : RawInputs) : String × UserInputs :=
  (parse_preferences (filterInputs r), filterInputs r)

/-- The metadata record of a candidate listing, as `score_listing` reads it.
Bedroom and bathroom counts are integers per the spec's data model; price,
square footage and amenities keep their raw Python value since the code
converts them defensively. -/
structure Metadata where
  location : Option String := none
  price : Option PyObj := none
  square_feet : Option PyObj := none
  number_of_bedrooms : Option ℤ := none
  number_of_bathrooms : Option ℤ := none
  amenities : Option PyObj := none
deriving DecidableEq

/-- A retrieved document: page content plus metadata. -/
structure Listing where
  page_content : String := ""
  metadata : Metadata := {}
deriving DecidableEq

/-- Python truthiness of `dict.get` on a `PyObj`-valued key. -/
def truthyObj? : Option PyObj → Bool
  | some v => v.truthy
  | none => false

/-- The hard city filter of `score_listing`:
`user_inputs.get("city") and metadata.get("location")` are truthy and the
lower-cased locations differ. -/
def cityFiltered (u : UserInputs) (m : Metadata) : Bool :=
  truthyStr? u.city && truthyStr? m.location &&
    pyLower (m.location.getD "") ≠ pyLower (u.city.getD "")

/-- Budget proximity term of `score_listing`: when both budget and price are
truthy, try the float conversions and add `max(0, 3 - |budget - price| /
budget)`; any exception in the `try` block (an unparsable value, or the
`ZeroDivisionError` raised when the parsed budget is zero) adds nothing. -/
def budgetTerm (u : UserInputs) (m : Metadata) : ℚ :=
  if truthyStr? u.budget && truthyObj? m.price then
    match pyFloatOfString? (u.budget.getD ""), pyFloat? (m.price.getD .pyNone) with
    | some budget, some price =>
        if budget = 0 then 0 else max 0 (3 - |budget - price| / budget)
    | _, _ => 0
  else 0

/-- Square-footage proximity term of `score_listing`: same decay shape with
cap `2`. -/
def sizeTerm (u : UserInputs) (m : Metadata) : ℚ :=
  if truthyStr? u.square_feet && truthyObj? m.square_feet then
    match pyFloatOfString? (u.square_feet.getD ""),
        pyFloat? (m.square_feet.getD .pyNone) with
    | some desired, some actual =>
        if desired = 0 then 0 else max 0 (2 - |desired - actual| / desired)
    | _, _ => 0
  else 0

/-- Python's substring test `a in b`. -/
def substrOf (a b : String) : Bool := decide (a.data <:+: b.data)

/-- Bedroom term of `score_listing`: `1` when the key is present, the features
text is truthy and the stringified count occurs in it. -/
def bedroomTerm (u : UserInputs) (m : Metadata) : ℚ :=
  match m.number_of_bedrooms with
  | some n =>
      if truthyStr? u.features && substrOf (toString n) (u.features.getD "") then 1
      else 0
  | none => 0

/-- Bathroom term of `score_listing`, independently of the bedroom term. -/
def bathroomTerm (u : UserInputs) (m : Metadata) : ℚ :=
  match m.number_of_bathrooms with
  | some n =>
      if truthyStr? u.features && substrOf (toString n) (u.features.getD "") then 1
      else 0
  | none => 0

/-- Amenity term of `score_listing`: when the key is present, the user list is
truthy and the stored value is a proper list, add `0.5` per element of the set
intersection (i.e. per distinct shared amenity). -/
def amenityTerm (u : UserInputs) (m : Metadata) : ℚ :=
  if m.amenities.isSome && truthyList? u.amenities then
    match m.amenities with
    | some (.list xs) =>
        (((u.amenities.getD []).dedup.filter (fun a => a ∈ xs)).length : ℚ) * (1 / 2)
    | _ => 0
  else 0

/-- `score_listing`, the inner function of `rerank_listings` in `app.py`:
return `0` outright for a city-filtered candidate, otherwise the base score
`5` plus the five optional contribution terms. -/
def score_listing (u : UserInputs) (l : Listing) : ℚ :=
  let m := l.metadata
  if cityFiltered u m then 0
  else 5 + budgetTerm u m + sizeTerm u m + bedroomTerm u m + bathroomTerm u m
    + amenityTerm u m

/-- The comparison of `sorted(scored, key=lambda x: x[0], reverse=True)`:
`a` may precede `b` when `a`'s score is at least `b`'s.  Python's sort is
stable and so is `List.mergeSort`. -/
def scoreGE (a b : ℚ × Listing) : Bool := decide (b.1 ≤ a.1)

/-- `rerank_listings` from `app.py`: score every candidate, stable-sort the
(score, doc) pairs in descending score order, return the first three. -/
def rerank_listings (listings : List Listing) (u : UserInputs) :
    List (ℚ × Listing) :=
  let scored := listings.map (fun doc => (score_listing u doc, doc))
  let ranked := scored.mergeSort scoreGE
  ranked.take 3

/-- The listing dictionary handed to `augment_listing_with_preferences`,
with the fields the function reads.  Prices of listings are nonnegative
numbers per the data model, so the `int(price)` the code formats is a `ℕ`. -/
structure AugListing where
  title : String := ""
  location : String := ""
  number_of_bedrooms : ℤ := 0
  number_of_bathrooms : ℤ := 0
  square_feet : ℤ := 0
  price : ℕ := 0
  amenities : List String := []
  page_content : String := ""
  neighborhood_description : String := ""
deriving DecidableEq

/-- Insert a comma after every group of three digits, counting from the least
significant digit of the reversed digit list (helper for `f"{n:,}"`). -/
def groupRev : List Char → List Char
  | c1 :: c2 :: c3 :: c4 :: rest => c1 :: c2 :: c3 :: ',' :: groupRev (c4 :: rest)
  | cs => cs

/-- Python's thousands-separator format `f"{n:,}"` for a nonnegative int. -/
def commaFormat (n : ℕ) : String :=
  ⟨(groupRev (toString n).data.reverse).reverse⟩

/-- The concatenation of the adjacent string literals in
`augment_listing_with_preferences`.  In the source these literals are followed
directly by `"".join(...)` with no operator in between, so Python first glues
them (and the final `""`) into one literal and then calls `.join` on it: this
template string is the SEPARATOR of the join over the amenity bullet lines,
not a prefix of the result. -/
def augTemplate (L : AugListing) (preferences : String) : String :=
  let bedrooms := L.number_of_bedrooms
  let bathrooms := L.number_of_bathrooms
  let location := L.location
  let area := L.square_feet
  let priceStr := commaFormat L.price
  let description := L.page_content
  let neighborhood_desc := L.neighborhood_description
  s!"Welcome to this cozy {bedrooms}-bedroom, {bathrooms}-bathrooms home " ++
  s!"that could be perfect for your family in {location}! " ++
  s!"It offers approximately {area} square feet of living space, priced at ${priceStr}. " ++
  s!"{description} {neighborhood_desc}" ++
  s!"This fits your preference for {preferences} with the following amenities available:\n\n"

/-- `raw_augmented_description` as the source actually computes it:
`template.join("- {a}\n" for a in amenities)`. -/
def raw_augmented_description (L : AugListing) (preferences : String) : String :=
  String.intercalate (augTemplate L preferences)
    (L.amenities.map (fun a => s!"- {a}\n"))

/-- `augment_listing_with_preferences` from `llm_pipeline/utils.py`, with the
language-model call modelled by its outcome: on success (`some refined`) the
code returns `refined.strip()`, on any exception (`none`) it logs a warning
and returns the raw augmented description unchanged. -/
def augment_listing_with_preferences (L : AugListing) (preferences : String)
    (llmOutcome : Option String) : String :=
  match llmOutcome with
  | some refined => refined.trim
  | none => raw_augmented_description L preferences

/-! ### Helper lemmas -/

lemma scoreGE_trans : ∀ a b c : ℚ × Listing, scoreGE a b → scoreGE b c → scoreGE a c := by
  intro a b c hab hbc
  simp only [scoreGE, decide_eq_true_eq] at hab hbc ⊢
  exact le_trans hbc hab

lemma scoreGE_total : ∀ a b : ℚ × Listing, scoreGE a b || scoreGE b a := by
  intro a b
  simp only [scoreGE, Bool.or_eq_true, decide_eq_true_eq]
  exact le_total b.1 a.1

/-- Every pair returned by `rerank_listings` is the score of its own listing,
and that listing comes from the input. -/
lemma mem_scored_of_mem_rerank {listings : List Listing} {u : UserInputs}
    {s : ℚ} {d : Listing} (h : (s, d) ∈ rerank_listings listings u) :
    s = score_listing u d ∧ d ∈ listings := by
  unfold rerank_listings at h
  have h1 := List.take_subset 3 _ h
  rw [List.mem_mergeSort] at h1
  obtain ⟨doc, hdoc, heq⟩ := List.mem_map.mp h1
  cases heq
  exact ⟨rfl, hdoc⟩

/-! ### C6: the numeric normalizer never raises and substitutes defaults -/

/-- C6: for every input value and caller-supplied default, `safe_int` and
`safe_float` are total functions (nothing can raise); whenever the attempted
conversion fails they return the supplied default, and `safe_float` runs the
conversion on the stringified input with every character that is not a digit
or a decimal point stripped (the stripped string is a digits-and-points-only
subsequence of the original). -/
theorem C6_parsers_never_raise :
    (∀ (val : PyObj) (d : ℤ), pyInt? val = none → safe_int val d = d) ∧
    (∀ (val : PyObj) (d : ℚ),
      pyFloatOfString? (stripNonDigitDot (pyStr val)) = none → safe_float val d = d) ∧
    (∀ (val : PyObj) (d q : ℚ),
      pyFloatOfString? (stripNonDigitDot (pyStr val)) = some q → safe_float val d = q) ∧
    (∀ s : String, (stripNonDigitDot s).data.all (fun c => c.isDigit || c == '.')) ∧
    (∀ s : String, List.Sublist (stripNonDigitDot s).data s.data) := by
  refine ⟨?_, ?_, ?_, ?_, ?_⟩
  · intro val d h
    simp [safe_int, h]
  · intro val d h
    simp [safe_float, h]
  · intro val d q h
    simp [safe_float, h]
  · intro s
    simp only [stripNonDigitDot, List.all_eq_true]
    intro c hc
    exact (List.mem_filter.mp hc).2
  · intro s
    exact List.filter_sublist s.data

theorem C6_parsers_never_raise_witness :
    safe_int (.str "abc") 7 = 7 ∧ safe_float .pyNone 1000 = 1000 ∧
      safe_float (.str "a1.5b") 3 = digitDotVal ['1', '.', '5'] :=
  ⟨C6_parsers_never_raise.1 (.str "abc") 7 (by decide),
   C6_parsers_never_raise.2.1 .pyNone 1000 (by decide),
   C6_parsers_never_raise.2.2.1 (.str "a1.5b") 3 (digitDotVal ['1', '.', '5']) rfl⟩

/-! ### C7: `parse_price` randomizes its default within [100000, 900000] -/

/-- C7: with the random draw modelled as the explicit argument `r` of
`random.randint(100_000, 900_000)`, `parse_price` returns the draw itself on
every unparsable input, so the default always lies in [100000, 900000]; and
two draws can make two calls on the same malformed input return different
values. -/
theorem C7_parse_price_random_default :
    (∀ (val : PyObj) (r : ℤ), 100000 ≤ r → r ≤ 900000 →
      pyFloatOfString? (stripNonDigitDot (pyStr val)) = none →
      parse_price r val = (r : ℚ) ∧
        (100000 : ℚ) ≤ parse_price r val ∧ parse_price r val ≤ 900000) ∧
    (∃ r₁ r₂ : ℤ, 100000 ≤ r₁ ∧ r₁ ≤ 900000 ∧ 100000 ≤ r₂ ∧ r₂ ≤ 900000 ∧
      parse_price r₁ (.str "not a number") ≠ parse_price r₂ (.str "not a number")) := by
  have hval : ∀ (val : PyObj) (r : ℤ),
      pyFloatOfString? (stripNonDigitDot (pyStr val)) = none →
      parse_price r val = (r : ℚ) := by
    intro val r h
    simp [parse_price, safe_float, h]
  constructor
  · intro val r h1 h2 h3
    refine ⟨hval val r h3, ?_, ?_⟩
    · rw [hval val r h3]
      exact_mod_cast h1
    · rw [hval val r h3]
      exact_mod_cast h2
  · refine ⟨100000, 100001, by norm_num, by norm_num, by norm_num, by norm_num, ?_⟩
    rw [hval _ _ (by decide), hval _ _ (by decide)]
    norm_num

theorem C7_parse_price_random_default_witness :
    parse_price 123456 (.str "abc") = (123456 : ℚ) ∧
      (100000 : ℚ) ≤ parse_price 123456 (.str "abc") ∧
      parse_price 123456 (.str "abc") ≤ 900000 :=
  C7_parse_price_random_default.1 (.str "abc") 123456 (by norm_num) (by norm_num)
    (by decide)

/-! ### C2: the augmentation fallback -/

/-- The failing input for the augmentation-fallback claim: a Berlin listing
with price 440000, three bedrooms and a single amenity. -/
def augL1 : AugListing :=
  { location := "Berlin", price := 440000, number_of_bedrooms := 3,
    amenities := ["gym"] }

/-- C2: evaluation of `augment_listing_with_preferences` at the failing
input.  In the source the adjacent f-string literals are followed directly by
`"".join(...)` with no `+`, so the factual template is used as the SEPARATOR
of the join over the amenity bullet lines: with a single amenity the fallback
returned on a language-model failure is just `"- gym\n"` — it contains
neither the location nor the price (in any rendering) nor the bedroom count —
and with no amenities it is the empty string. -/
theorem C2_fallback_drops_facts :
    augment_listing_with_preferences augL1 "prefs" none = "- gym\n" ∧
    ¬ ("Berlin".data <:+: (augment_listing_with_preferences augL1 "prefs" none).data) ∧
    ¬ ("440,000".data <:+: (augment_listing_with_preferences augL1 "prefs" none).data) ∧
    ¬ ("440000".data <:+: (augment_listing_with_preferences augL1 "prefs" none).data) ∧
    ¬ ("3".data <:+: (augment_listing_with_preferences augL1 "prefs" none).data) ∧
    augment_listing_with_preferences { augL1 with amenities := [] } "prefs" none = "" :=
  ⟨rfl, by decide, by decide, by decide, by decide, rfl⟩

/-! ### C3: top-N truncation -/

/-- C3: `rerank_listings` returns `min 3 n` scored listings for an input of
length `n` (so never more than three), in weakly descending score order, and
returns the empty list on the empty candidate sequence. -/
theorem C3_topn_truncation (listings : List Listing) (u : UserInputs) :
    (rerank_listings listings u).length = min 3 listings.length ∧
    (rerank_listings listings u).Pairwise (fun a b => b.1 ≤ a.1) ∧
    rerank_listings [] u = [] := by
  refine ⟨?_, ?_, ?_⟩
  · simp [rerank_listings]
  · have hs := List.sorted_mergeSort scoreGE_trans scoreGE_total
      (listings.map fun doc => (score_listing u doc, doc))
    have ht := List.Pairwise.sublist (List.take_sublist 3 _) hs
    exact ht.imp (fun h => by simpa [scoreGE] using h)
  · simp [rerank_listings]

/-! ### C1: the hard city filter zeroes mismatched candidates -/

/-- C1: whenever the preference record sets a (truthy) city and a candidate
carries a location that differs from it case-insensitively, the score paired
with that candidate in the output of `rerank_listings` is exactly `0`, no
matter how its price, square footage, bed/bath counts or amenities match. -/
theorem C1_city_filter_zeroes (u : UserInputs) (listings : List Listing)
    (c loc : String) (s : ℚ) (cand : Listing)
    (hcity : u.city = some c) (hc : c ≠ "")
    (hmem : (s, cand) ∈ rerank_listings listings u)
    (hloc : cand.metadata.location = some loc) (hl : loc ≠ "")
    (hdiff : pyLower loc ≠ pyLower c) : s = 0 := by
  obtain ⟨hs, -⟩ := mem_scored_of_mem_rerank hmem
  have hf : cityFiltered u cand.metadata = true := by
    simp [cityFiltered, truthyStr?, hcity, hloc, hc, hl, hdiff]
  rw [hs]
  simp [score_listing, hf]

/-- Concrete data for the witnesses: a Berlin query against a Munich
candidate. -/
def uW1 : UserInputs := { city := some "Berlin" }

/-- A candidate located in Munich with no other metadata. -/
def mW1 : Listing := { metadata := { location := some "Munich" } }

/-- A candidate with no location at all. -/
def dW1 : Listing := { page_content := "a" }

lemma score_mW1 : score_listing uW1 mW1 = 0 := by decide

lemma rerank_mW1 : rerank_listings [mW1] uW1 = [(0, mW1)] := by
  simp [rerank_listings, score_mW1]

theorem C1_city_filter_zeroes_witness : (0 : ℚ) = 0 :=
  C1_city_filter_zeroes uW1 [mW1] "Berlin" "Munich" 0 mW1 rfl (by decide)
    (by rw [rerank_mW1]; exact List.mem_singleton.mpr rfl) rfl (by decide) (by decide)

/-! ### C10: scores are 0 or at least 5; a missing location escapes the filter -/

lemma budgetTerm_nonneg (u : UserInputs) (m : Metadata) : 0 ≤ budgetTerm u m := by
  unfold budgetTerm
  repeat' split
  all_goals simp [le_max_left]

lemma sizeTerm_nonneg (u : UserInputs) (m : Metadata) : 0 ≤ sizeTerm u m := by
  unfold sizeTerm
  repeat' split
  all_goals simp [le_max_left]

lemma bedroomTerm_nonneg (u : UserInputs) (m : Metadata) : 0 ≤ bedroomTerm u m := by
  unfold bedroomTerm
  repeat' split
  all_goals norm_num

lemma bathroomTerm_nonneg (u : UserInputs) (m : Metadata) : 0 ≤ bathroomTerm u m := by
  unfold bathroomTerm
  repeat' split
  all_goals norm_num

lemma amenityTerm_nonneg (u : UserInputs) (m : Metadata) : 0 ≤ amenityTerm u m := by
  unfold amenityTerm
  repeat' split
  all_goals positivity

/-- Every non-filtered candidate scores the base `5` plus nonnegative
contributions. -/
lemma score_listing_floor (u : UserInputs) (d : Listing) :
    score_listing u d = 0 ∨ 5 ≤ score_listing u d := by
  by_cases hf : cityFiltered u d.metadata = true
  · left
    simp [score_listing, hf]
  · right
    rw [Bool.not_eq_true] at hf
    simp only [score_listing, hf, if_false, Bool.false_eq_true]
    have h1 := budgetTerm_nonneg u d.metadata
    have h2 := sizeTerm_nonneg u d.metadata
    have h3 := bedroomTerm_nonneg u d.metadata
    have h4 := bathroomTerm_nonneg u d.metadata
    have h5 := amenityTerm_nonneg u d.metadata
    linarith

/-- C10: every score `rerank_listings` emits is either exactly `0` or at
least `5` — nothing strictly in between — and a candidate whose metadata has
no truthy location is never zeroed by the city filter: it scores at least `5`
even when the preference record sets a city. -/
theorem C10_score_floor (u : UserInputs) (listings : List Listing) :
    (∀ (s : ℚ) (d : Listing), (s, d) ∈ rerank_listings listings u →
      s = 0 ∨ 5 ≤ s) ∧
    (∀ d : Listing, truthyStr? d.metadata.location = false →
      5 ≤ score_listing u d) := by
  refine ⟨?_, ?_⟩
  · intro s d hmem
    obtain ⟨hs, -⟩ := mem_scored_of_mem_rerank hmem
    rw [hs]
    exact score_listing_floor u d
  · intro d hfalsy
    have hf : cityFiltered u d.metadata = false := by
      simp [cityFiltered, hfalsy]
    have h1 := budgetTerm_nonneg u d.metadata
    have h2 := sizeTerm_nonneg u d.metadata
    have h3 := bedroomTerm_nonneg u d.metadata
    have h4 := bathroomTerm_nonneg u d.metadata
    have h5 := amenityTerm_nonneg u d.metadata
    simp only [score_listing, hf, if_false, Bool.false_eq_true]
    linarith

theorem C10_score_floor_witness :
    ((0 : ℚ) = 0 ∨ (5 : ℚ) ≤ 0) ∧ (5 : ℚ) ≤ score_listing uW1 dW1 :=
  ⟨(C10_score_floor uW1 [mW1]).1 0 mW1
      (by rw [rerank_mW1]; exact List.mem_singleton.mpr rfl),
   (C10_score_floor uW1 []).2 dW1 rfl⟩

/-! ### C5: amenity-overlap scoring -/

/-- `score_listing` written with its components, for rewriting. -/
lemma score_split (u : UserInputs) (pc : String) (m : Metadata) :
    score_listing u ⟨pc, m⟩ =
      if cityFiltered u m then 0
      else 5 + budgetTerm u m + sizeTerm u m + bedroomTerm u m
        + bathroomTerm u m + amenityTerm u m := rfl

/-- None of the other scoring components reads the amenities field, so the
score of a candidate with the amenities entry removed unfolds componentwise
over the original metadata. -/
lemma score_set_amenities_none (u : UserInputs) (pc : String) (m : Metadata) :
    score_listing u ⟨pc, { m with amenities := none }⟩ =
      if cityFiltered u m then 0
      else 5 + budgetTerm u m + sizeTerm u m + bedroomTerm u m
        + bathroomTerm u m + 0 := rfl

/-- Same unfolding for a candidate whose amenities entry is a raw string. -/
lemma score_set_amenities_str (u : UserInputs) (pc : String) (m : Metadata) (t : String) :
    score_listing u ⟨pc, { m with amenities := some (.str t) }⟩ =
      if cityFiltered u m then 0
      else 5 + budgetTerm u m + sizeTerm u m + bedroomTerm u m
        + bathroomTerm u m + amenityTerm u { m with amenities := some (.str t) } := rfl

/-- A raw-string amenities value contributes nothing. -/
lemma amenityTerm_set_str (u : UserInputs) (m : Metadata) (t : String) :
    amenityTerm u { m with amenities := some (.str t) } = 0 := by
  cases ht : truthyList? u.amenities <;> simp [amenityTerm, ht]

/-- A proper-list amenities value contributes half a point per distinct shared
amenity (when the user set no amenity list, both sides are zero). -/
lemma amenityTerm_list (u : UserInputs) (m : Metadata) (xs : List String)
    (hxs : m.amenities = some (.list xs)) :
    amenityTerm u m =
      (((u.amenities.getD []).dedup.filter (fun a => a ∈ xs)).length : ℚ) * (1 / 2) := by
  by_cases ht : truthyList? u.amenities = true
  · simp [amenityTerm, hxs, ht]
  · rw [Bool.not_eq_true] at ht
    have hnil : u.amenities.getD [] = [] := by
      cases hu : u.amenities with
      | none => rfl
      | some ys =>
        simp [truthyList?, hu] at ht
        simp [ht]
    simp [amenityTerm, hxs, ht, hnil]

/-- The preference record and candidate of the spec's amenity example. -/
def uC5 : UserInputs := { amenities := some ["pool", "garden"] }

/-- Metadata carrying the example's candidate amenity list. -/
def mC5 : Metadata := { amenities := some (.list ["gym", "pool"]) }

/-- The example candidate listing. -/
def lC5 : Listing := ⟨"", mC5⟩

/-- C5: for a non-city-filtered candidate whose amenities value is a proper
list, `score_listing` (hence `rerank`) adds exactly `0.5` per amenity in the
set intersection of the user's and the candidate's amenity lists, compared to
the same candidate without an amenities entry; a raw-string amenities value
adds nothing; and the concrete example — candidate `["gym","pool"]` against
preferences `["pool","garden"]` — contributes exactly `0.5`. -/
theorem C5_amenity_overlap :
    (∀ (u : UserInputs) (m : Metadata) (pc : String) (xs : List String),
      cityFiltered u m = false → m.amenities = some (.list xs) →
      score_listing u ⟨pc, m⟩ =
        score_listing u ⟨pc, { m with amenities := none }⟩ +
          (((u.amenities.getD []).dedup.filter (fun a => a ∈ xs)).length : ℚ) * (1 / 2)) ∧
    (∀ (u : UserInputs) (m : Metadata) (pc : String) (t : String),
      score_listing u ⟨pc, { m with amenities := some (.str t) }⟩ =
        score_listing u ⟨pc, { m with amenities := none }⟩) ∧
    score_listing uC5 lC5 =
      score_listing uC5 ⟨"", { mC5 with amenities := none }⟩ + 1 / 2 := by
  have key : ∀ (u : UserInputs) (m : Metadata) (pc : String) (xs : List String),
      cityFiltered u m = false → m.amenities = some (.list xs) →
      score_listing u ⟨pc, m⟩ =
        score_listing u ⟨pc, { m with amenities := none }⟩ +
          (((u.amenities.getD []).dedup.filter (fun a => a ∈ xs)).length : ℚ) * (1 / 2) := by
    intro u m pc xs hf hxs
    rw [score_split, score_set_amenities_none, amenityTerm_list u m xs hxs]
    simp only [hf, Bool.false_eq_true, if_false]
    ring
  refine ⟨key, ?_, ?_⟩
  · intro u m pc t
    rw [score_set_amenities_str, score_set_amenities_none, amenityTerm_set_str]
  · have h := key uC5 mC5 "" ["gym", "pool"] (by decide) rfl
    rw [lC5]
    rw [h]
    have hlen :
        ((uC5.amenities.getD []).dedup.filter (fun a => a ∈ ["gym", "pool"])).length = 1 := by
      decide
    rw [hlen]
    norm_num

theorem C5_amenity_overlap_witness :
    score_listing uC5 lC5 =
      score_listing uC5 ⟨"", { mC5 with amenities := none }⟩ +
        (((uC5.amenities.getD []).dedup.filter (fun a => a ∈ ["gym", "pool"])).length : ℚ)
          * (1 / 2) :=
  C5_amenity_overlap.1 uC5 mC5 "" ["gym", "pool"] (by decide) rfl

/-! ### C8: the preference normalizer -/

/-- Modelled from the spec (§4.2): the expected query sentences — one
fixed-template sentence per present-and-non-empty field, in the fixed field
order square_feet, city, budget, features, amenities (comma-joined),
neighborhoods (comma-joined); a missing or empty field contributes no
sentence. -/
def specSentences (r : RawInputs) : List String :=
  (r.square_feet.bind fun v =>
    if v = "" then none else some s!"I want a house of around {v} sq ft.").toList ++
  (r.city.bind fun v =>
    if v = "" then none else some s!"My preferred city is {v}.").toList ++
  (r.budget.bind fun v =>
    if v = "" then none else some s!"My budget is around {v}.").toList ++
  (r.features.bind fun v =>
    if v = "" then none else some s!"I\x27m looking for features like: {v}.").toList ++
  (r.amenities.bind fun v =>
    if v = [] then none else
      let w := String.intercalate ", " v
      some s!"I want amenities like: {w}.").toList ++
  (r.neighborhoods.bind fun v =>
    if v = [] then none else
      let w := String.intercalate ", " v
      some s!"My preferred neighborhoods are: {w}.").toList

/-- One filtered-then-rendered string field produces exactly the optional
sentence of the spec's template. -/
lemma strFieldSeg (x : Option String) (tmpl : String → String) :
    (if truthyStr? (if x = some "" then none else x) then
        [tmpl ((if x = some "" then none else x).getD "")]
      else ([] : List String)) =
    (x.bind fun v => if v = "" then none else some (tmpl v)).toList := by
  cases x with
  | none => rfl
  | some v =>
    by_cases hv : v = ""
    · subst hv
      rfl
    · simp [truthyStr?, hv]

/-- Same for a list-valued field. -/
lemma listFieldSeg (x : Option (List String)) (tmpl : List String → String) :
    (if truthyList? (if x = some [] then none else x) then
        [tmpl ((if x = some [] then none else x).getD [])]
      else ([] : List String)) =
    (x.bind fun v => if v = [] then none else some (tmpl v)).toList := by
  cases x with
  | none => rfl
  | some v =>
    by_cases hv : v = []
    · subst hv
      rfl
    · simp [truthyList?, hv]

/-- A filtered string field is present exactly when the raw field was present
and non-empty. -/
lemma strFieldKey (x : Option String) :
    (if x = some "" then none else x).isSome ↔ ∃ s, x = some s ∧ s ≠ "" := by
  cases x with
  | none => simp
  | some v => by_cases hv : v = "" <;> simp [hv]

/-- Same for a list-valued field. -/
lemma listFieldKey (x : Option (List String)) :
    (if x = some [] then none else x).isSome ↔ ∃ xs, x = some xs ∧ xs ≠ [] := by
  cases x with
  | none => simp
  | some v => by_cases hv : v = [] <;> simp [hv]

/-- C8: `normalize` (the `run_ui` falsy-value filter plus `parse_preferences`,
a pure function of its input) keeps a preference key exactly when the raw
field is present and non-empty, and renders the query string as the
newline-join of the spec's fixed-template sentences, one per retained field,
in the fixed field order. -/
theorem C8_normalize_shape (r : RawInputs) :
    ((normalize r).2.square_feet.isSome ↔ ∃ s, r.square_feet = some s ∧ s ≠ "") ∧
    ((normalize r).2.city.isSome ↔ ∃ s, r.city = some s ∧ s ≠ "") ∧
    ((normalize r).2.budget.isSome ↔ ∃ s, r.budget = some s ∧ s ≠ "") ∧
    ((normalize r).2.features.isSome ↔ ∃ s, r.features = some s ∧ s ≠ "") ∧
    ((normalize r).2.amenities.isSome ↔ ∃ xs, r.amenities = some xs ∧ xs ≠ []) ∧
    ((normalize r).2.neighborhoods.isSome ↔ ∃ xs, r.neighborhoods = some xs ∧ xs ≠ []) ∧
    (normalize r).1 = String.intercalate "\n" (specSentences r) := by
  refine ⟨strFieldKey r.square_feet, strFieldKey r.city, strFieldKey r.budget,
    strFieldKey r.features, listFieldKey r.amenities, listFieldKey r.neighborhoods, ?_⟩
  have h1 := strFieldSeg r.square_feet (fun v => s!"I want a house of around {v} sq ft.")
  have h2 := strFieldSeg r.city (fun v => s!"My preferred city is {v}.")
  have h3 := strFieldSeg r.budget (fun v => s!"My budget is around {v}.")
  have h4 := strFieldSeg r.features (fun v => s!"I\x27m looking for features like: {v}.")
  have h5 := listFieldSeg r.amenities (fun v =>
    let w := String.intercalate ", " v
    s!"I want amenities like: {w}.")
  have h6 := listFieldSeg r.neighborhoods (fun v =>
    let w := String.intercalate ", " v
    s!"My preferred neighborhoods are: {w}.")
  show parse_preferences (filterInputs r) = _
  simp only [parse_preferences, specSentences, filterInputs]
  rw [← h1, ← h2, ← h3, ← h4, ← h5, ← h6]

/-! ### C4: ties keep their input order (stability) -/

/-- A two-element sublist of a duplicate-free list both of whose elements land
in the taken prefix is a sublist of that prefix. -/
lemma pair_sublist_take_of_mem {α : Type} :
    ∀ (L : List α) (n : ℕ) (a b : α), L.Nodup → List.Sublist [a, b] L →
      a ∈ L.take n → b ∈ L.take n → List.Sublist [a, b] (L.take n) := by
  intro L
  induction L with
  | nil =>
    intro n a b _ _ ha _
    simp at ha
  | cons c L ih =>
    intro n a b hnd hab ha hb
    cases n with
    | zero => simp at ha
    | succ n =>
      rw [List.take_succ_cons] at ha hb ⊢
      rw [List.nodup_cons] at hnd
      obtain ⟨hcL, hndL⟩ := hnd
      cases hab with
      | cons _ h =>
        have haL : a ∈ L := h.subset (by simp)
        have hbL : b ∈ L := h.subset (by simp)
        have ha2 : a ∈ L.take n := by
          rcases List.mem_cons.mp ha with h1 | h1
          · exact absurd (h1 ▸ haL) hcL
          · exact h1
        have hb2 : b ∈ L.take n := by
          rcases List.mem_cons.mp hb with h1 | h1
          · exact absurd (h1 ▸ hbL) hcL
          · exact h1
        exact (ih n a b hndL h ha2 hb2).cons c
      | cons₂ _ h =>
        have hbL : b ∈ L := h.subset (by simp)
        have hb2 : b ∈ L.take n := by
          rcases List.mem_cons.mp hb with h1 | h1
          · exact absurd (h1 ▸ hbL) hcL
          · exact h1
        exact (List.singleton_sublist.mpr hb2).cons₂ c

/-- C4: the descending sort in `rerank_listings` is stable — two distinct
candidates with identical computed scores that both make it into the output
appear there in their input order. -/
theorem C4_stable_sort (u : UserInputs) (listings : List Listing)
    (hnd : listings.Nodup) (d1 d2 : Listing)
    (hsub : List.Sublist [d1, d2] listings)
    (heq : score_listing u d1 = score_listing u d2)
    (h1 : (score_listing u d1, d1) ∈ rerank_listings listings u)
    (h2 : (score_listing u d2, d2) ∈ rerank_listings listings u) :
    List.Sublist [(score_listing u d1, d1), (score_listing u d2, d2)]
      (rerank_listings listings u) := by
  have hinj : Function.Injective (fun doc : Listing => (score_listing u doc, doc)) := by
    intro a b h
    exact congrArg Prod.snd h
  have hscored := List.Sublist.map (fun doc : Listing => (score_listing u doc, doc)) hsub
  have hpair : scoreGE (score_listing u d1, d1) (score_listing u d2, d2) := by
    simp [scoreGE, heq]
  have hrank := List.pair_sublist_mergeSort scoreGE_trans scoreGE_total hpair hscored
  have hndr : (((listings.map fun doc => (score_listing u doc, doc))).mergeSort
      scoreGE).Nodup :=
    ((List.mergeSort_perm _ _).nodup_iff).mpr (List.Nodup.map hinj hnd)
  exact pair_sublist_take_of_mem _ 3 _ _ hndr hrank h1 h2

/-- A second location-free candidate, distinct from `dW1`, for the stability
witness. -/
def dW2 : Listing := { page_content := "b" }

/-- The empty preference record. -/
def uEmpty : UserInputs := {}

lemma score_dW1 : score_listing uEmpty dW1 = 5 := by
  simp [score_listing, cityFiltered, truthyStr?, uEmpty, dW1, budgetTerm, sizeTerm,
    bedroomTerm, bathroomTerm, amenityTerm]

lemma score_dW2 : score_listing uEmpty dW2 = 5 := by
  simp [score_listing, cityFiltered, truthyStr?, uEmpty, dW2, budgetTerm, sizeTerm,
    bedroomTerm, bathroomTerm, amenityTerm]

lemma rerank_ties : rerank_listings [dW1, dW2] uEmpty = [(5, dW1), (5, dW2)] := by
  unfold rerank_listings
  simp only [List.map_cons, List.map_nil, score_dW1, score_dW2]
  rw [List.mergeSort_of_sorted (by simp [scoreGE])]
  rfl

theorem C4_stable_sort_witness :
    List.Sublist [(score_listing uEmpty dW1, dW1), (score_listing uEmpty dW2, dW2)]
      (rerank_listings [dW1, dW2] uEmpty) :=
  C4_stable_sort uEmpty [dW1, dW2] (by decide) dW1 dW2 (List.Sublist.refl _)
    (by rw [score_dW1, score_dW2])
    (by rw [score_dW1, rerank_ties]; simp)
    (by rw [score_dW2, rerank_ties]; simp)

/-! ### C9: end-to-end reranking scenario -/

/-- Peeling the strict maximum off a descending-sorted list. -/
lemma sorted_head (R : List (ℚ × Listing))
    (hsort : R.Pairwise (fun x y => y.1 ≤ x.1))
    (a : ℚ × Listing) (ha : a ∈ R) (hmax : ∀ x ∈ R, x ≠ a → x.1 < a.1) :
    ∃ T, R = a :: T ∧ T.Pairwise (fun x y => y.1 ≤ x.1) := by
  cases R with
  | nil => exact absurd ha (List.not_mem_nil a)
  | cons r T =>
    by_cases hra : r = a
    · subst hra
      exact ⟨T, rfl, (List.pairwise_cons.mp hsort).2⟩
    · exfalso
      rcases List.mem_cons.mp ha with h1 | h1
      · exact hra h1.symm
      · have hle : a.1 ≤ r.1 := (List.pairwise_cons.mp hsort).1 a h1
        exact (not_lt.mpr hle) (hmax r (List.mem_cons_self r T) hra)

/-- A candidate occurring once in the input cannot occur twice among the
scored pairs (up to permutation of the scored list). -/
lemma not_pair_dup_of_count_one {d : Listing} {l : List Listing}
    (hc : l.count d = 1) (u : UserInputs) (R : List (ℚ × Listing))
    (hperm : List.Perm R (l.map fun doc => (score_listing u doc, doc)))
    (hdup : List.Sublist
      [(score_listing u d, d), (score_listing u d, d)] R) : False := by
  have hsp : List.Subperm [(score_listing u d, d), (score_listing u d, d)]
      (l.map fun doc => (score_listing u doc, doc)) :=
    hdup.subperm.trans hperm.subperm
  obtain ⟨l2, hl2perm, hl2sub⟩ := hsp
  have hl2 : l2 = [(score_listing u d, d), (score_listing u d, d)] := by
    have h2 : [(score_listing u d, d), (score_listing u d, d)] =
        List.replicate 2 (score_listing u d, d) := rfl
    rw [h2] at hl2perm ⊢
    exact List.perm_replicate.mp hl2perm
  subst hl2
  obtain ⟨l3, hl3sub, hl3eq⟩ := List.sublist_map_iff.mp hl2sub
  cases l3 with
  | nil => simp at hl3eq
  | cons x t =>
    cases t with
    | nil => simp at hl3eq
    | cons y t2 =>
      cases t2 with
      | cons z t3 => simp at hl3eq
      | nil =>
        simp only [List.map_cons, List.map_nil] at hl3eq
        injection hl3eq with hx h1
        injection h1 with hy h2
        have hxd : x = d := (congrArg Prod.snd hx).symm
        have hyd : y = d := (congrArg Prod.snd hy).symm
        rw [hxd, hyd] at hl3sub
        have hcle := List.Sublist.count_le hl3sub d
        simp [List.count_cons] at hcle
        omega

/-- When two candidates strictly dominate everything else, the reranked
output is exactly those two followed by some third remaining candidate. -/
lemma rerank_top_two (u : UserInputs) (l : List Listing) (b1 b2 : Listing)
    (hm1 : b1 ∈ l) (hm2 : b2 ∈ l) (hc1 : l.count b1 = 1) (hc2 : l.count b2 = 1)
    (hlen : 3 ≤ l.length)
    (h21 : score_listing u b2 < score_listing u b1)
    (hothers : ∀ d ∈ l, d ≠ b1 → d ≠ b2 →
      score_listing u d < score_listing u b2) :
    ∃ m, m ∈ l ∧ m ≠ b1 ∧ m ≠ b2 ∧
      rerank_listings l u =
        [(score_listing u b1, b1), (score_listing u b2, b2),
         (score_listing u m, m)] := by
  have hne12 : b1 ≠ b2 := by
    intro h
    rw [h] at h21
    exact lt_irrefl _ h21
  have hne12p : (score_listing u b2, b2) ≠ (score_listing u b1, b1) := by
    intro h
    exact hne12 (congrArg Prod.snd h).symm
  have hperm := List.mergeSort_perm (l.map fun doc => (score_listing u doc, doc)) scoreGE
  have hsort : ((l.map fun doc => (score_listing u doc, doc)).mergeSort
      scoreGE).Pairwise (fun x y => y.1 ≤ x.1) :=
    (List.sorted_mergeSort scoreGE_trans scoreGE_total _).imp
      (fun h => by simpa [scoreGE] using h)
  -- the top element
  have ha1 : (score_listing u b1, b1) ∈
      (l.map fun doc => (score_listing u doc, doc)).mergeSort scoreGE :=
    hperm.mem_iff.mpr (List.mem_map_of_mem _ hm1)
  have hmax1 : ∀ x ∈ (l.map fun doc => (score_listing u doc, doc)).mergeSort scoreGE,
      x ≠ (score_listing u b1, b1) → x.1 < score_listing u b1 := by
    intro x hx hne
    obtain ⟨d, hd, rfl⟩ := List.mem_map.mp (hperm.subset hx)
    by_cases hdb1 : d = b1
    · exact absurd (by rw [hdb1]) hne
    · by_cases hdb2 : d = b2
      · rw [hdb2]
        exact h21
      · exact lt_trans (hothers d hd hdb1 hdb2) h21
  obtain ⟨T1, hR1, hT1sort⟩ := sorted_head _ hsort _ ha1 hmax1
  -- the first scored pair of b1 is the only one
  have ha1T1 : (score_listing u b1, b1) ∉ T1 := by
    intro hmem
    refine not_pair_dup_of_count_one hc1 u _ hperm ?_
    rw [hR1]
    exact List.Sublist.cons₂ _ (List.singleton_sublist.mpr hmem)
  -- the second element
  have ha2T1 : (score_listing u b2, b2) ∈ T1 := by
    have h := hperm.mem_iff.mpr (List.mem_map_of_mem _ hm2)
    rw [hR1] at h
    rcases List.mem_cons.mp h with h1 | h1
    · exact absurd h1 hne12p
    · exact h1
  have hmax2 : ∀ x ∈ T1, x ≠ (score_listing u b2, b2) → x.1 < score_listing u b2 := by
    intro x hx hne
    have hxR : x ∈ (l.map fun doc => (score_listing u doc, doc)).mergeSort scoreGE := by
      rw [hR1]
      exact List.mem_cons_of_mem _ hx
    obtain ⟨d, hd, hdx⟩ := List.mem_map.mp (hperm.subset hxR)
    by_cases hdb1 : d = b1
    · rw [hdb1] at hdx
      rw [← hdx] at hx
      exact absurd hx ha1T1
    · by_cases hdb2 : d = b2
      · rw [hdb2] at hdx
        exact absurd hdx.symm hne
      · rw [← hdx]
        exact hothers d hd hdb1 hdb2
  obtain ⟨T2, hT12, hT2sort⟩ := sorted_head _ hT1sort _ ha2T1 hmax2
  have ha2T2 : (score_listing u b2, b2) ∉ T2 := by
    intro hmem
    refine not_pair_dup_of_count_one hc2 u _ hperm ?_
    rw [hR1, hT12]
    exact List.Sublist.cons _ (List.Sublist.cons₂ _ (List.singleton_sublist.mpr hmem))
  -- the third element
  have hlenT2 : T2.length = l.length - 2 := by
    have e1 := hperm.length_eq
    rw [hR1, hT12] at e1
    simp at e1
    omega
  cases hT2 : T2 with
  | nil =>
    rw [hT2] at hlenT2
    simp at hlenT2
    omega
  | cons x T3 =>
    have hxT1 : x ∈ T1 := by
      rw [hT12, hT2]
      exact List.mem_cons_of_mem _ (List.mem_cons_self x T3)
    have hxR : x ∈ (l.map fun doc => (score_listing u doc, doc)).mergeSort scoreGE := by
      rw [hR1]
      exact List.mem_cons_of_mem _ hxT1
    obtain ⟨m, hmmem, hmx⟩ := List.mem_map.mp (hperm.subset hxR)
    have hmb1 : m ≠ b1 := by
      intro h
      rw [h] at hmx
      rw [← hmx] at hxT1
      exact ha1T1 hxT1
    have hmb2 : m ≠ b2 := by
      intro h
      rw [h] at hmx
      rw [hT2, ← hmx] at ha2T2
      exact ha2T2 (List.mem_cons_self _ T3)
    refine ⟨m, hmmem, hmb1, hmb2, ?_⟩
    show ((l.map fun doc => (score_listing u doc, doc)).mergeSort scoreGE).take 3 = _
    rw [hR1, hT12, hT2, ← hmx]
    rfl

/-- The preference record of the spec's end-to-end scenario. -/
def uC9 : UserInputs :=
  { square_feet := some "1200", city := some "Berlin", budget := some "450000" }

/-- A value whose float conversion succeeds with a nonzero result is truthy. -/
lemma truthy_of_pyFloat (v : PyObj) (q : ℚ) (hq : pyFloat? v = some q) (h0 : q ≠ 0) :
    v.truthy = true := by
  cases v with
  | pyNone => simp [pyFloat?] at hq
  | int n =>
    simp only [pyFloat?, Option.some.injEq] at hq
    simp only [PyObj.truthy, ne_eq, decide_eq_true_eq]
    intro h
    rw [h] at hq
    apply h0
    rw [← hq]
    norm_num
  | float p =>
    simp only [pyFloat?, Option.some.injEq] at hq
    simp only [PyObj.truthy, ne_eq, decide_eq_true_eq]
    intro h
    rw [h] at hq
    exact h0 hq.symm
  | str s =>
    by_cases hs : s = ""
    · subst hs
      simp only [pyFloat?] at hq
      have hnone : pyFloatOfString? "" = none := rfl
      rw [hnone] at hq
      exact Option.noConfusion hq
    · simp [PyObj.truthy, hs]
  | list xs => simp [pyFloat?] at hq

lemma bedroomTerm_no_features (u : UserInputs) (m : Metadata)
    (hf : u.features = none) : bedroomTerm u m = 0 := by
  cases hb : m.number_of_bedrooms <;> simp [bedroomTerm, hb, hf, truthyStr?]

lemma bathroomTerm_no_features (u : UserInputs) (m : Metadata)
    (hf : u.features = none) : bathroomTerm u m = 0 := by
  cases hb : m.number_of_bathrooms <;> simp [bathroomTerm, hb, hf, truthyStr?]

lemma amenityTerm_no_amenities (u : UserInputs) (m : Metadata)
    (ha : u.amenities = none) : amenityTerm u m = 0 := by
  simp [amenityTerm, ha, truthyList?]

lemma parse450000 : pyFloatOfString? "450000" = some 450000 := by
  have h : pyFloatOfString? "450000" =
      some (((450000 : ℕ) : ℚ) + ((0 : ℕ) : ℚ) / (10 : ℚ) ^ (0 : ℕ)) := rfl
  rw [h]
  norm_num

lemma parse1200 : pyFloatOfString? "1200" = some 1200 := by
  have h : pyFloatOfString? "1200" =
      some (((1200 : ℕ) : ℚ) + ((0 : ℕ) : ℚ) / (10 : ℚ) ^ (0 : ℕ)) := rfl
  rw [h]
  norm_num

lemma budgetTerm_uC9 (m : Metadata) (v : PyObj) (p : ℚ)
    (hv : m.price = some v) (hq : pyFloat? v = some p) (h0 : p ≠ 0) :
    budgetTerm uC9 m = max 0 (3 - |450000 - p| / 450000) := by
  have ht : PyObj.truthy v = true := truthy_of_pyFloat v p hq h0
  have hb : truthyStr? (some "450000") = true := rfl
  have h450 : ¬ (450000 : ℚ) = 0 := by norm_num
  simp [budgetTerm, uC9, hv, truthyObj?, ht, hb, parse450000, hq, h450]

lemma sizeTerm_uC9 (m : Metadata) (w : PyObj) (s : ℚ)
    (hw : m.square_feet = some w) (hq : pyFloat? w = some s) (h0 : s ≠ 0) :
    sizeTerm uC9 m = max 0 (2 - |1200 - s| / 1200) := by
  have ht : PyObj.truthy w = true := truthy_of_pyFloat w s hq h0
  have hb : truthyStr? (some "1200") = true := rfl
  have h1200 : ¬ (1200 : ℚ) = 0 := by norm_num
  simp [sizeTerm, uC9, hw, truthyObj?, ht, hb, parse1200, hq, h1200]

lemma cityFiltered_berlin (m : Metadata) (hloc : m.location = some "Berlin") :
    cityFiltered uC9 m = false := by
  simp [cityFiltered, uC9, hloc]

/-- The score of a Berlin candidate under the scenario preferences is governed
entirely by the budget and size proximity terms. -/
lemma score_berlin (d : Listing) (hloc : d.metadata.location = some "Berlin")
    (v w : PyObj) (p s : ℚ)
    (hv : d.metadata.price = some v) (hvq : pyFloat? v = some p) (hp0 : p ≠ 0)
    (hw : d.metadata.square_feet = some w) (hwq : pyFloat? w = some s) (hs0 : s ≠ 0) :
    score_listing uC9 d =
      5 + max 0 (3 - |450000 - p| / 450000) + max 0 (2 - |1200 - s| / 1200) := by
  have hf := cityFiltered_berlin d.metadata hloc
  have hb := budgetTerm_uC9 d.metadata v p hv hvq hp0
  have hsz := sizeTerm_uC9 d.metadata w s hw hwq hs0
  have hbed := bedroomTerm_no_features uC9 d.metadata rfl
  have hbath := bathroomTerm_no_features uC9 d.metadata rfl
  have hamen := amenityTerm_no_amenities uC9 d.metadata rfl
  simp only [score_listing, hf, Bool.false_eq_true, if_false, hb, hsz, hbed, hbath,
    hamen]
  ring

lemma score_munich (d : Listing) (hloc : d.metadata.location = some "Munich") :
    score_listing uC9 d = 0 := by
  have hne : pyLower "Munich" ≠ pyLower "Berlin" := by decide
  have h1 : truthyStr? (some "Berlin") = true := rfl
  have h2 : truthyStr? (some "Munich") = true := rfl
  have hf : cityFiltered uC9 d.metadata = true := by
    simp [cityFiltered, uC9, hloc, h1, h2, hne]
  simp [score_listing, hf]

/-- C9: with preferences {budget 450000, city Berlin, square_feet 1200} and
any five candidates consisting of one Berlin listing priced 440000 at 1180
square feet, one Berlin listing priced 600000 at 2000 square feet, and
otherwise Munich listings, the reranked top three are the close Berlin
listing first (strictly highest score), the other Berlin listing second, and
one Munich listing at score 0 third — no Munich listing above any Berlin
listing. -/
theorem C9_end_to_end (l : List Listing) (b1 b2 : Listing)
    (hb1loc : b1.metadata.location = some "Berlin")
    (hb1p : ∃ v, b1.metadata.price = some v ∧ pyFloat? v = some 440000)
    (hb1s : ∃ v, b1.metadata.square_feet = some v ∧ pyFloat? v = some 1180)
    (hb2loc : b2.metadata.location = some "Berlin")
    (hb2p : ∃ v, b2.metadata.price = some v ∧ pyFloat? v = some 600000)
    (hb2s : ∃ v, b2.metadata.square_feet = some v ∧ pyFloat? v = some 2000)
    (hlen : l.length = 5)
    (hc1 : l.count b1 = 1) (hc2 : l.count b2 = 1)
    (hm1 : b1 ∈ l) (hm2 : b2 ∈ l)
    (hrest : ∀ d ∈ l, d = b1 ∨ d = b2 ∨ d.metadata.location = some "Munich") :
    ∃ m : Listing, m.metadata.location = some "Munich" ∧
      rerank_listings l uC9 =
        [(score_listing uC9 b1, b1), (score_listing uC9 b2, b2), (0, m)] ∧
      score_listing uC9 b2 < score_listing uC9 b1 ∧
      0 < score_listing uC9 b2 := by
  obtain ⟨v1, hv1, hv1q⟩ := hb1p
  obtain ⟨w1, hw1, hw1q⟩ := hb1s
  obtain ⟨v2, hv2, hv2q⟩ := hb2p
  obtain ⟨w2, hw2, hw2q⟩ := hb2s
  have hs1v : score_listing uC9 b1 = 1793 / 180 := by
    rw [score_berlin b1 hb1loc v1 w1 440000 1180 hv1 hv1q (by norm_num) hw1 hw1q
      (by norm_num)]
    rw [show |(450000 : ℚ) - 440000| = 10000 from by rw [abs_of_pos] <;> norm_num]
    rw [show |(1200 : ℚ) - 1180| = 20 from by rw [abs_of_pos] <;> norm_num]
    rw [max_eq_right (by norm_num : (0 : ℚ) ≤ 3 - 10000 / 450000)]
    rw [max_eq_right (by norm_num : (0 : ℚ) ≤ 2 - 20 / 1200)]
    norm_num
  have hs2v : score_listing uC9 b2 = 9 := by
    rw [score_berlin b2 hb2loc v2 w2 600000 2000 hv2 hv2q (by norm_num) hw2 hw2q
      (by norm_num)]
    rw [show |(450000 : ℚ) - 600000| = 150000 from by
      rw [show (450000 : ℚ) - 600000 = -(150000 : ℚ) by norm_num, abs_neg, abs_of_pos]
      norm_num]
    rw [show |(1200 : ℚ) - 2000| = 800 from by
      rw [show (1200 : ℚ) - 2000 = -(800 : ℚ) by norm_num, abs_neg, abs_of_pos]
      norm_num]
    rw [max_eq_right (by norm_num : (0 : ℚ) ≤ 3 - 150000 / 450000)]
    rw [max_eq_right (by norm_num : (0 : ℚ) ≤ 2 - 800 / 1200)]
    norm_num
  have h21 : score_listing uC9 b2 < score_listing uC9 b1 := by
    rw [hs1v, hs2v]
    norm_num
  have hothers : ∀ d ∈ l, d ≠ b1 → d ≠ b2 →
      score_listing uC9 d < score_listing uC9 b2 := by
    intro d hd hd1 hd2
    rcases hrest d hd with h | h | h
    · exact absurd h hd1
    · exact absurd h hd2
    · rw [score_munich d h, hs2v]
      norm_num
  obtain ⟨m, hmmem, hmb1, hmb2, heq⟩ :=
    rerank_top_two uC9 l b1 b2 hm1 hm2 hc1 hc2 (by omega) h21 hothers
  have hmloc : m.metadata.location = some "Munich" := by
    rcases hrest m hmmem with h | h | h
    · exact absurd h hmb1
    · exact absurd h hmb2
    · exact h
  refine ⟨m, hmloc, ?_, h21, by rw [hs2v]; norm_num⟩
  rw [heq, score_munich m hmloc]

/-- The concrete candidates of the end-to-end witness. -/
def bW1 : Listing :=
  ⟨"b1", { location := some "Berlin", price := some (.int 440000),
           square_feet := some (.int 1180) }⟩

/-- The farther Berlin candidate. -/
def bW2 : Listing :=
  ⟨"b2", { location := some "Berlin", price := some (.int 600000),
           square_feet := some (.int 2000) }⟩

/-- Three Munich candidates. -/
def mWa : Listing := ⟨"m1", { location := some "Munich" }⟩

/-- Second Munich candidate. -/
def mWb : Listing :=
  ⟨"m2", { location := some "Munich", price := some (.int 500000) }⟩

/-- Third Munich candidate. -/
def mWc : Listing := ⟨"m3", { location := some "Munich" }⟩

theorem C9_end_to_end_witness :
    ∃ m : Listing, m.metadata.location = some "Munich" ∧
      rerank_listings [mWa, bW1, mWb, bW2, mWc] uC9 =
        [(score_listing uC9 bW1, bW1), (score_listing uC9 bW2, bW2), (0, m)] ∧
      score_listing uC9 bW2 < score_listing uC9 bW1 ∧
      0 < score_listing uC9 bW2 :=
  C9_end_to_end [mWa, bW1, mWb, bW2, mWc] bW1 bW2 rfl
    ⟨.int 440000, rfl, by norm_num [pyFloat?]⟩
    ⟨.int 1180, rfl, by norm_num [pyFloat?]⟩ rfl
    ⟨.int 600000, rfl, by norm_num [pyFloat?]⟩
    ⟨.int 2000, rfl, by norm_num [pyFloat?]⟩
    rfl (by decide) (by decide) (by decide) (by decide) (by decide)

end RealEstate
